import Mathlib

/-!
Shallow embedding of `cyber_poster.py`, a script that fetches RSS entries,
filters out previously posted URLs, selects one item and posts it to a chat,
recording the posted URL in an append-only backing file.

External collaborators (the feed parser and the HTTP transport) are modelled
as parameters: `parse` maps a feed URL to its list of raw entries, the
transport outcome is a boolean `publishOk`, and `random.choice` is modelled
by an arbitrary natural number `pick` reduced modulo the list length.
Timestamps on log lines are abstracted away: a log entry in the model is the
message passed to `log`, without the `[now]` prefix.
-/

namespace CyberPoster

/-- A raw feed entry as seen by `fetch_news`: `entry.get("link")`,
`entry.get("title", ...)` and `entry.get("summary", ...)` may each be absent. -/
structure RawEntry where
  link : Option String
  title : Option String
  summary : Option String
deriving DecidableEq, Repr

/-- The dict `{"title": ..., "url": ..., "summary": ...}` built by `fetch_news`. -/
structure Item where
  title : String
  url : String
  summary : String
deriving DecidableEq, Repr

/-- The persistent state: the in-memory set `posted_urls` (modelled as a
duplicate-free list) and the lines of the backing file `posted_urls.txt`
in append order. -/
structure Store where
  posted_urls : List String
  file : List String
deriving DecidableEq, Repr

/-- Python string slicing `s[:n]`: the first `n` code points of `s`. -/
def pyTake (n : Nat) (s : String) : String := ⟨s.data.take n⟩

/-- Python `str.strip()`: remove leading and trailing whitespace. -/
def pyStrip (s : String) : String :=
  ⟨((s.data.dropWhile Char.isWhitespace).reverse.dropWhile Char.isWhitespace).reverse⟩

/-- Auxiliary structural recursion for `pySplitComma`. -/
def splitCommaAux : List Char → List Char → List String
  | [], acc => [⟨acc.reverse⟩]
  | c :: cs, acc =>
    if c = ',' then (⟨acc.reverse⟩ : String) :: splitCommaAux cs []
    else splitCommaAux cs (c :: acc)

/-- Python `s.split(",")`.  Note `"".split(",") == [""]`: the result is never
the empty list. -/
def pySplitComma (s : String) : List String := splitCommaAux s.data []

/-- Python `set.add`: insert a URL into the in-memory set (no-op when present). -/
def addUrl (l : List String) (u : String) : List String :=
  if u ∈ l then l else l ++ [u]

/-- The per-entry body of the loop in `fetch_news` (lines 51-57):
`url = entry.get("link"); if not url or url in posted_urls: continue;`
then build the item with defaulted title and the summary sliced to 400
characters.  `not url` is true both when the link field is absent and when it
is the empty string. -/
def filterEntry (posted : List String) (e : RawEntry) : Option Item :=
  match e.link with
  | none => none
  | some url =>
    if url = "" ∨ url ∈ posted then none
    else some { title := e.title.getD ("No title"), url := url,
                summary := pyTake 400 (e.summary.getD ("")) }

/-- The items contributed by one configured feed URL: the URL is stripped,
blank entries are skipped, otherwise the parsed entries are filtered. -/
def feedItems (parse : String → List RawEntry) (posted : List String)
    (feed_url : String) : List Item :=
  let fu := pyStrip feed_url
  if fu = "" then [] else (parse fu).filterMap (filterEntry posted)

/-- The log lines emitted while fetching one configured feed URL. -/
def feedLogs (parse : String → List RawEntry) (feed_url : String) : List String :=
  let fu := pyStrip feed_url
  if fu = "" then []
  else [("Fetched " ++ toString (parse fu).length ++ " items from " ++ fu)]

/-- `fetch_news` (lines 42-58): iterate over the configured feeds in order and
collect the surviving items (first component) and the per-feed log lines
(second component). -/
def fetch_news (parse : String → List RawEntry) (posted : List String)
    (feeds : List String) : List Item × List String :=
  ((feeds.map (feedItems parse posted)).flatten,
   (feeds.map (feedLogs parse)).flatten)

/-- The message body built by `send_telegram_message` (line 62):
an f-string that wraps the title in bold markup, then a blank line, the
summary, another blank line, and an anchor tag linking to the URL with the
text Read more. -/
def send_telegram_message (title summary url : String) : String :=
  "<b>" ++ title ++ "</b>\n\n" ++ summary ++ "\n\n<a href=\x27" ++ url ++
    "\x27>Read more</a>"

/-- `save_posted` decomposed at its failure point: the in-memory insertion
(line 74) happens first; the file append (lines 75-76) happens second and may
raise, in which case only the in-memory insertion has taken effect. -/
def save_posted_steps (s : Store) (url : String) (appendOk : Bool) : Store :=
  let s1 : Store := { s with posted_urls := addUrl s.posted_urls url }
  if appendOk then { s1 with file := s1.file ++ [url] } else s1

/-- `save_posted` (lines 72-76) on the normal path: add to the in-memory set
and append one line to the backing file. -/
def save_posted (s : Store) (url : String) : Store := save_posted_steps s url true

/-- The item chosen by `random.choice(news_items)`: an arbitrary valid index,
modelled as `pick` reduced modulo the list length. -/
def select (pick : Nat) (items : List Item) : Item :=
  items.getD (pick % items.length) { title := "", url := "", summary := "" }

/-- Everything one run of `main` produces: the resulting store, the log
messages in order, and how many times the Publisher was invoked. -/
structure CycleResult where
  store : Store
  logs : List String
  publishes : Nat
deriving DecidableEq, Repr

/-- `main` (lines 78-94): fetch, bail out with a log line when nothing is new,
otherwise pick one item, attempt to publish it, and record its URL only when
the publish succeeded; a failed publish is logged with the item title. -/
def main (parse : String → List RawEntry) (feeds : List String) (pick : Nat)
    (publishOk : Bool) (errMsg : String) (s : Store) : CycleResult :=
  let fetched := fetch_news parse s.posted_urls feeds
  let news_items := fetched.1
  let fetchLogs := ("Fetching latest articles..." : String) :: fetched.2
  if news_items.isEmpty then
    { store := s,
      logs := fetchLogs ++ [("No new posts found. Everything up to date ✅")],
      publishes := 0 }
  else
    let item := select pick news_items
    if publishOk then
      { store := save_posted s item.url,
        logs := fetchLogs ++ [("✅ Posted: " ++ item.title)],
        publishes := 1 }
    else
      { store := s,
        logs := fetchLogs ++
          [("⚠️ Failed to post " ++ item.title ++ ": " ++ errMsg)],
        publishes := 1 }

/-- The environment variables the module-level configuration reads. -/
structure Env where
  bot_token : Option String
  chat_id : Option String
  rss_feeds : Option String
deriving DecidableEq, Repr

/-- Python truthiness of `os.getenv(...)`: false for an absent variable and
for the empty string. -/
def pyTruthyOpt (s : Option String) : Bool :=
  match s with
  | none => false
  | some v => v ≠ ""

/-- `RSS_FEEDS = os.getenv("RSS_FEEDS", "").split(",")` (line 21). -/
def rssFeedsOf (env : Env) : List String := pySplitComma (env.rss_feeds.getD (""))

/-- The module-level check (lines 26-27): the startup exception is raised iff
`all([BOT_TOKEN, CHAT_ID, RSS_FEEDS])` is falsy, where `RSS_FEEDS` is the
already-split list. -/
def startup_config_error (env : Env) : Bool :=
  !(pyTruthyOpt env.bot_token && pyTruthyOpt env.chat_id &&
    !(rssFeedsOf env).isEmpty)

/-- The store invariant maintained across cycles: the backing file holds no
duplicate lines and every line of the file is in the in-memory set. -/
def Inv (s : Store) : Prop :=
  s.file.Nodup ∧ ∀ u, u ∈ s.file → u ∈ s.posted_urls

/-! ### Helper lemmas -/

theorem filterEntry_some_iff (posted : List String) (e : RawEntry) (it : Item) :
    filterEntry posted e = some it ↔
      ∃ u, e.link = some u ∧ ¬(u = "" ∨ u ∈ posted) ∧
        it = { title := e.title.getD ("No title"), url := u,
               summary := pyTake 400 (e.summary.getD ("")) } := by
  unfold filterEntry
  cases hl : e.link with
  | none => simp
  | some u =>
    by_cases h : u = "" ∨ u ∈ posted
    · simp [h]
      intro h1 h2
      cases h with
      | inl h3 => exact (h1 h3).elim
      | inr h3 => exact (h2 h3).elim
    · simp only [h, if_false, Option.some.injEq]
      constructor
      · intro hit
        exact ⟨u, rfl, h, hit.symm⟩
      · rintro ⟨v, hv, -, hit⟩
        cases hv
        exact hit.symm

theorem select_mem (pick : Nat) (items : List Item) (h : items ≠ []) :
    select pick items ∈ items := by
  unfold select
  have hlen : 0 < items.length := List.length_pos.mpr h
  have hlt : pick % items.length < items.length := Nat.mod_lt _ hlen
  rw [List.getD_eq_getElem _ _ hlt]
  exact List.getElem_mem hlt

theorem mem_fetch_not_posted (parse : String → List RawEntry)
    (posted : List String) (feeds : List String) (it : Item)
    (h : it ∈ (fetch_news parse posted feeds).1) :
    it.url ∉ posted ∧ it.url ≠ "" := by
  unfold fetch_news at h
  rw [List.mem_flatten] at h
  obtain ⟨l, hl, hit⟩ := h
  rw [List.mem_map] at hl
  obtain ⟨fu, -, rfl⟩ := hl
  unfold feedItems at hit
  by_cases hb : pyStrip fu = ""
  · simp [hb] at hit
  · simp only [hb, if_false] at hit
    rw [List.mem_filterMap] at hit
    obtain ⟨e, -, he⟩ := hit
    obtain ⟨u, -, hc, hitv⟩ := (filterEntry_some_iff _ _ _).mp he
    push_neg at hc
    subst hitv
    exact ⟨hc.2, hc.1⟩

/-! ### Claim theorems -/

/-- C1: a raw feed entry passes the Filter exactly when it carries a URL
(a link field that is present and non-empty, matching the truthiness
test `not url`) that is not a member of the posted-URL set, the membership
test being exact string equality on the unmodified URL; when it passes, the
produced item carries that very URL. -/
theorem filter_includes_iff_new_url (posted : List String) (e : RawEntry) :
    ((filterEntry posted e).isSome = true ↔
       ∃ u, e.link = some u ∧ u ≠ "" ∧ u ∉ posted) ∧
    (∀ it, filterEntry posted e = some it → e.link = some it.url) := by
  constructor
  · rw [Option.isSome_iff_exists]
    constructor
    · rintro ⟨it, hit⟩
      obtain ⟨u, hl, hcond, -⟩ := (filterEntry_some_iff posted e it).mp hit
      push_neg at hcond
      exact ⟨u, hl, hcond.1, hcond.2⟩
    · rintro ⟨u, hl, hne, hnm⟩
      refine ⟨_, (filterEntry_some_iff posted e _).mpr ⟨u, hl, ?_, rfl⟩⟩
      push_neg
      exact ⟨hne, hnm⟩
  · intro it hit
    obtain ⟨u, hl, -, hit⟩ := (filterEntry_some_iff posted e it).mp hit
    rw [hl, hit]

theorem filter_includes_iff_new_url_witness :
    (filterEntry [("a")] { link := some ("b"), title := none,
                           summary := none }).isSome = true :=
  (filter_includes_iff_new_url [("a")]
    { link := some ("b"), title := none, summary := none }).1.mpr
    ⟨("b"), rfl, by decide, by decide⟩

/-- C5: the summary stored in a Feed Entry that survives the Filter is the
raw slice of the first 400 characters of the input summary: exactly
400 characters when the input is longer than 400, and the unchanged input
otherwise. -/
theorem summary_truncation (posted : List String) (e : RawEntry) (it : Item)
    (h : filterEntry posted e = some it) :
    it.summary = pyTake 400 (e.summary.getD ("")) ∧
    (400 < (e.summary.getD ("")).length → it.summary.length = 400) ∧
    ((e.summary.getD ("")).length ≤ 400 →
      it.summary = e.summary.getD ("")) := by
  obtain ⟨u, hl, hcond, hit⟩ := (filterEntry_some_iff posted e it).mp h
  subst hit
  refine ⟨rfl, ?_, ?_⟩
  · intro hlong
    show (pyTake 400 (e.summary.getD (""))).length = 400
    have h1 : (pyTake 400 (e.summary.getD (""))).length =
        ((e.summary.getD ("")).data.take 400).length := rfl
    rw [h1, List.length_take]
    have hlong2 : 400 < (e.summary.getD ("")).data.length := hlong
    omega
  · intro hshort
    show pyTake 400 (e.summary.getD ("")) = e.summary.getD ("")
    have hshort2 : (e.summary.getD ("")).data.length ≤ 400 := hshort
    unfold pyTake
    rw [List.take_of_length_le hshort2]

/-- The 401-character string used to exercise the truncation bound. -/
def longSummary : String := ⟨List.replicate 401 'a'⟩

/-- C2: when the publish step fails, the cycle leaves the store untouched
(neither the in-memory set nor the backing file gains the URL) and emits a
failure log line that contains the title of the selected item. -/
theorem publish_failure_keeps_store (parse : String → List RawEntry)
    (feeds : List String) (pick : Nat) (errMsg : String) (s : Store)
    (h : (fetch_news parse s.posted_urls feeds).1 ≠ []) :
    (main parse feeds pick false errMsg s).store = s ∧
    ∃ before after,
      (before ++ (select pick (fetch_news parse s.posted_urls feeds).1).title
        ++ after) ∈ (main parse feeds pick false errMsg s).logs ∧
      before = ("⚠️ Failed to post ") ∧ after = (": " ++ errMsg) := by
  have hne : (fetch_news parse s.posted_urls feeds).1.isEmpty = false := by
    rw [List.isEmpty_eq_false]
    exact h
  constructor
  · simp [main, hne]
  · refine ⟨("⚠️ Failed to post "), (": " ++ errMsg), ?_, rfl, rfl⟩
    simp only [main, hne, Bool.false_eq_true, if_false]
    rw [← String.append_assoc]
    exact List.mem_append_right _ (List.mem_singleton_self _)

theorem publish_failure_keeps_store_witness :
    (main (fun _ => [{ link := some ("a"), title := some ("T"),
                       summary := some ("s") }]) [("f")] 0 false ("boom")
      { posted_urls := [], file := [] }).store =
      { posted_urls := [], file := [] } :=
  (publish_failure_keeps_store
    (fun _ => [{ link := some ("a"), title := some ("T"),
                 summary := some ("s") }]) [("f")] 0 ("boom")
    { posted_urls := [], file := [] } (by decide)).1

/-- C6: the Publisher is invoked at most once per cycle, and a cycle whose
filtered list is empty emits the informational log line and ends with the
store unchanged and zero publishes. -/
theorem at_most_one_publish (parse : String → List RawEntry)
    (feeds : List String) (pick : Nat) (publishOk : Bool) (errMsg : String)
    (s : Store) :
    (main parse feeds pick publishOk errMsg s).publishes ≤ 1 ∧
    ((fetch_news parse s.posted_urls feeds).1 = [] →
      (main parse feeds pick publishOk errMsg s).store = s ∧
      (main parse feeds pick publishOk errMsg s).publishes = 0 ∧
      ("No new posts found. Everything up to date ✅")
        ∈ (main parse feeds pick publishOk errMsg s).logs) := by
  constructor
  · simp only [main]
    split
    · exact Nat.zero_le 1
    · split
      · exact Nat.le_refl 1
      · exact Nat.le_refl 1
  · intro hempty
    have hne : (fetch_news parse s.posted_urls feeds).1.isEmpty = true := by
      rw [hempty]
      rfl
    refine ⟨by simp [main, hne], by simp [main, hne], ?_⟩
    simp only [main, hne, if_true]
    exact List.mem_append_right _ (List.mem_singleton_self _)

theorem at_most_one_publish_witness :
    (main (fun _ => []) [("f")] 0 true ("") { posted_urls := [], file := [] }).publishes ≤ 1 ∧
    (main (fun _ => []) [("f")] 0 true ("") { posted_urls := [], file := [] }).publishes = 0 :=
  have h := at_most_one_publish (fun _ => []) [("f")] 0 true ("")
    { posted_urls := [], file := [] }
  ⟨h.1, (h.2 (by decide)).2.1⟩

set_option maxRecDepth 4000 in
theorem summary_truncation_witness :
    ({ title := ("No title"), url := ("u"),
       summary := pyTake 400 longSummary } : Item).summary.length = 400 :=
  (summary_truncation []
    { link := some ("u"), title := none, summary := some longSummary }
    { title := ("No title"), url := ("u"), summary := pyTake 400 longSummary }
    (by decide)).2.1 (by decide)

/-- C7: the message body is the bold title, a blank line, the summary, a
blank line, then the anchor-style Read-more link; and an entry whose source
lacks a title yields an item carrying the fixed placeholder title. -/
theorem message_format (t sm u : String) (posted : List String) (e : RawEntry)
    (it : Item) (ht : e.title = none) (h : filterEntry posted e = some it) :
    send_telegram_message t sm u =
      "<b>" ++ t ++ "</b>" ++ "\n\n" ++ sm ++ "\n\n" ++
        ("<a href=\x27" ++ u ++ "\x27>Read more</a>") ∧
    it.title = ("No title") := by
  constructor
  · unfold send_telegram_message
    simp only [String.append_assoc]
    rw [← String.append_assoc ("</b>") ("\n\n"),
      ← String.append_assoc ("\n\n") ("<a href=\x27")]
    rfl
  · obtain ⟨v, -, -, hit⟩ := (filterEntry_some_iff posted e it).mp h
    rw [hit]
    simp [ht]

theorem message_format_witness :
    send_telegram_message ("T") ("S") ("u") =
      "<b>" ++ ("T") ++ "</b>" ++ "\n\n" ++ ("S") ++ "\n\n" ++
        ("<a href=\x27" ++ ("u") ++ "\x27>Read more</a>") ∧
    ({ title := ("No title"), url := ("a"), summary := ("") } : Item).title =
      ("No title") :=
  message_format ("T") ("S") ("u") []
    { link := some ("a"), title := none, summary := none }
    { title := ("No title"), url := ("a"), summary := ("") } rfl (by decide)

/-- C9: a raw entry that has a usable URL but no summary field is kept by the
Filter with the summary defaulted to the empty string, and the resulting
message body has an empty summary section between the two blank lines. -/
theorem missing_summary_kept (posted : List String) (e : RawEntry) (u : String)
    (hl : e.link = some u) (hne : u ≠ "") (hnm : u ∉ posted)
    (hs : e.summary = none) :
    filterEntry posted e =
      some { title := e.title.getD ("No title"), url := u,
             summary := ("") } ∧
    send_telegram_message (e.title.getD ("No title")) ("") u =
      "<b>" ++ e.title.getD ("No title") ++ "</b>\n\n\n\n<a href=\x27" ++ u ++
        "\x27>Read more</a>" := by
  constructor
  · refine (filterEntry_some_iff posted e _).mpr ⟨u, hl, ?_, ?_⟩
    · push_neg
      exact ⟨hne, hnm⟩
    · rw [hs]
      rfl
  · unfold send_telegram_message
    have e2 : ("</b>\n\n" : String) ++ "\n\n<a href=\x27" =
        "</b>\n\n\n\n<a href=\x27" := rfl
    rw [String.append_empty,
      String.append_assoc ("<b>" ++ e.title.getD ("No title")) ("</b>\n\n")
        ("\n\n<a href=\x27"), e2]

theorem missing_summary_kept_witness :
    filterEntry [] { link := some ("u"), title := some ("T"), summary := none } =
      some { title := ("T"), url := ("u"), summary := ("") } :=
  (missing_summary_kept [] { link := some ("u"), title := some ("T"),
                             summary := none }
    ("u") rfl (by decide) (by decide) rfl).1

/-- C10: in `save_posted` the in-memory insertion precedes the file append,
so when the append fails the URL is in the in-memory set but not in the
backing file, and the entry is no longer eligible for the Filter within the
same process run; the success path performs both steps. -/
theorem record_set_before_file (s : Store) (u : String) (e : RawEntry)
    (hu : u ∉ s.posted_urls) (hf : u ∉ s.file) (hl : e.link = some u) :
    u ∈ (save_posted_steps s u false).posted_urls ∧
    (save_posted_steps s u false).file = s.file ∧
    u ∉ (save_posted_steps s u false).file ∧
    filterEntry (save_posted_steps s u false).posted_urls e = none ∧
    save_posted s u = save_posted_steps s u true := by
  have hmem : (save_posted_steps s u false).posted_urls =
      s.posted_urls ++ [u] := by
    simp [save_posted_steps, addUrl, hu]
  refine ⟨?_, rfl, hf, ?_, rfl⟩
  · rw [hmem]
    exact List.mem_append_right _ (List.mem_singleton_self u)
  · cases hres : filterEntry (save_posted_steps s u false).posted_urls e with
    | none => rfl
    | some it =>
      obtain ⟨v, hv, hc, -⟩ := (filterEntry_some_iff _ _ _).mp hres
      rw [hl] at hv
      injection hv with hv
      exfalso
      apply hc
      right
      rw [← hv, hmem]
      exact List.mem_append_right _ (List.mem_singleton_self u)

theorem record_set_before_file_witness :
    ("u") ∈ (save_posted_steps { posted_urls := [], file := [] } ("u")
      false).posted_urls ∧
    (save_posted_steps { posted_urls := [], file := [] } ("u") false).file =
      ([] : List String) :=
  have h := record_set_before_file { posted_urls := [], file := [] } ("u")
    { link := some ("u"), title := none, summary := none }
    (by decide) (by decide) rfl
  ⟨h.1, h.2.1⟩

theorem filterEntry_append (posted : List String) (u : String) (e : RawEntry) :
    filterEntry (posted ++ [u]) e =
      match filterEntry posted e with
      | none => none
      | some it => if it.url = u then none else some it := by
  cases hl : e.link with
  | none => simp [filterEntry, hl]
  | some v =>
    by_cases h1 : v = ""
    · simp [filterEntry, hl, h1]
    · by_cases h2 : v ∈ posted
      · simp [filterEntry, hl, h1, h2]
      · by_cases h3 : v = u
        · subst h3
          simp [filterEntry, hl, h1, h2]
        · simp [filterEntry, hl, h1, h2, h3]

theorem filterMap_append_posted (posted : List String) (u : String)
    (entries : List RawEntry) :
    entries.filterMap (filterEntry (posted ++ [u])) =
      (entries.filterMap (filterEntry posted)).filter
        (fun x => !(x.url = u)) := by
  induction entries with
  | nil => rfl
  | cons e es ih =>
    rw [List.filterMap_cons, List.filterMap_cons, filterEntry_append]
    cases hfe : filterEntry posted e with
    | none => simpa using ih
    | some it =>
      by_cases h : it.url = u
      · simp [h, ih]
      · simp [h, ih]

theorem feedItems_append_posted (parse : String → List RawEntry)
    (posted : List String) (u : String) (fu : String) :
    feedItems parse (posted ++ [u]) fu =
      (feedItems parse posted fu).filter (fun x => !(x.url = u)) := by
  unfold feedItems
  by_cases h : pyStrip fu = ""
  · simp [h]
  · simp [h, filterMap_append_posted]

theorem fetch_append_posted (parse : String → List RawEntry)
    (posted : List String) (u : String) (feeds : List String) :
    (fetch_news parse (posted ++ [u]) feeds).1 =
      ((fetch_news parse posted feeds).1).filter (fun x => !(x.url = u)) := by
  unfold fetch_news
  simp only [List.filter_flatten, List.map_map]
  congr 1
  apply List.map_congr_left
  intro fu _
  exact feedItems_append_posted parse posted u fu

/-- C4 (amended): after a first cycle whose publish succeeds, every item the
Filter of the second cycle produces from the unchanged feed carries a URL
different from the one published in the first cycle (the published URL is now
in the posted set); when the Filter of the first cycle produced exactly one
entry, the second cycle therefore finds nothing new and performs zero
publishes. -/
theorem dedupe_second_cycle (parse : String → List RawEntry)
    (feeds : List String) (pick pick2 : Nat) (err err2 : String) (pub2 : Bool)
    (s : Store)
    (h : (fetch_news parse s.posted_urls feeds).1 ≠ []) :
    (∀ it, it ∈ (fetch_news parse
        (main parse feeds pick true err s).store.posted_urls feeds).1 →
      it.url ≠ (select pick (fetch_news parse s.posted_urls feeds).1).url) ∧
    ((fetch_news parse s.posted_urls feeds).1.length = 1 →
      (fetch_news parse
        (main parse feeds pick true err s).store.posted_urls feeds).1 = [] ∧
      (main parse feeds pick2 pub2 err2
        (main parse feeds pick true err s).store).publishes = 0) := by
  have hne : (fetch_news parse s.posted_urls feeds).1.isEmpty = false := by
    rw [List.isEmpty_eq_false]
    exact h
  have hmem : select pick (fetch_news parse s.posted_urls feeds).1
      ∈ (fetch_news parse s.posted_urls feeds).1 := select_mem _ _ h
  have hnp := mem_fetch_not_posted parse s.posted_urls feeds _ hmem
  have hstore : (main parse feeds pick true err s).store =
      save_posted s
        (select pick (fetch_news parse s.posted_urls feeds).1).url := by
    simp [main, hne]
  have hpost : (main parse feeds pick true err s).store.posted_urls =
      s.posted_urls ++
        [(select pick (fetch_news parse s.posted_urls feeds).1).url] := by
    rw [hstore]
    simp [save_posted, save_posted_steps, addUrl, hnp.1]
  have hfilter : (fetch_news parse
      (main parse feeds pick true err s).store.posted_urls feeds).1 =
      ((fetch_news parse s.posted_urls feeds).1).filter
        (fun x => !(x.url =
          (select pick (fetch_news parse s.posted_urls feeds).1).url)) := by
    rw [hpost, fetch_append_posted]
  constructor
  · intro it hit
    rw [hfilter] at hit
    have hp := (List.mem_filter.mp hit).2
    simpa using hp
  · intro hlen
    obtain ⟨it, hit⟩ := List.length_eq_one.mp hlen
    have hsel : select pick (fetch_news parse s.posted_urls feeds).1 = it := by
      rw [hit]
      unfold select
      simp [Nat.mod_one]
    have hsecond : (fetch_news parse
        (main parse feeds pick true err s).store.posted_urls feeds).1 = [] := by
      rw [hfilter, hsel, hit]
      simp
    refine ⟨hsecond, ?_⟩
    have hemp : (fetch_news parse
        (main parse feeds pick true err s).store.posted_urls feeds).1.isEmpty
        = true := by
      rw [hsecond]
      rfl
    generalize hg : (main parse feeds pick true err s).store = s2 at hemp ⊢
    simp [main, hemp]

theorem dedupe_second_cycle_witness :
    (main (fun _ => [{ link := some ("a"), title := some ("A"),
                       summary := some ("s") }]) [("f")] 0 true ("")
      ((main (fun _ => [{ link := some ("a"), title := some ("A"),
                          summary := some ("s") }]) [("f")] 0 true ("")
        { posted_urls := [], file := [] }).store)).publishes = 0 :=
  (((dedupe_second_cycle
    (fun _ => [{ link := some ("a"), title := some ("A"),
                 summary := some ("s") }]) [("f")] 0 0 ("") ("") true
    { posted_urls := [], file := [] } (by decide)).2) (by decide)).2

/-- The two-entry feed used to refute C4 as literally stated. -/
def parseTwo : String → List RawEntry := fun _ =>
  [{ link := some ("a"), title := some ("A"), summary := some ("s") },
   { link := some ("b"), title := some ("B"), summary := some ("t") }]

/-- C4 counterexample: with an unchanged two-entry feed and a successful
first publish, the second cycle still performs one publish (the other entry
is still new), so the claim of zero publishes in the second cycle is false
as stated. -/
theorem dedupe_second_cycle_counterexample :
    (main parseTwo [("f")] 0 true ("")
      ((main parseTwo [("f")] 0 true ("")
        { posted_urls := [], file := [] }).store)).publishes = 1 := by
  decide

/-- C8: the backing file keeps its exactly-once invariant across a cycle: a
cycle either leaves the file unchanged or appends exactly one line, that line
is a URL that was neither in the in-memory set nor in the file before, and it
occurs exactly once in the resulting file. -/
theorem store_file_append_once (parse : String → List RawEntry)
    (feeds : List String) (pick : Nat) (publishOk : Bool) (errMsg : String)
    (s : Store) (h : Inv s) :
    Inv (main parse feeds pick publishOk errMsg s).store ∧
    ((main parse feeds pick publishOk errMsg s).store.file = s.file ∨
      ∃ u, u ∉ s.posted_urls ∧ u ∉ s.file ∧
        (main parse feeds pick publishOk errMsg s).store.file = s.file ++ [u] ∧
        (main parse feeds pick publishOk errMsg s).store.file.count u = 1) := by
  by_cases hne : (fetch_news parse s.posted_urls feeds).1.isEmpty = true
  · have hst : (main parse feeds pick publishOk errMsg s).store = s := by
      simp [main, hne]
    rw [hst]
    exact ⟨h, Or.inl rfl⟩
  · have hne2 : (fetch_news parse s.posted_urls feeds).1.isEmpty = false := by
      simpa using hne
    cases publishOk with
    | false =>
      have hst : (main parse feeds pick false errMsg s).store = s := by
        simp [main, hne2]
      rw [hst]
      exact ⟨h, Or.inl rfl⟩
    | true =>
      have hnil : (fetch_news parse s.posted_urls feeds).1 ≠ [] := by
        intro hx
        rw [hx] at hne2
        simp at hne2
      have hmem : select pick (fetch_news parse s.posted_urls feeds).1
          ∈ (fetch_news parse s.posted_urls feeds).1 := select_mem _ _ hnil
      have hnp := mem_fetch_not_posted parse s.posted_urls feeds _ hmem
      have hnf : (select pick (fetch_news parse s.posted_urls feeds).1).url
          ∉ s.file := fun hx => hnp.1 (h.2 _ hx)
      have hst : (main parse feeds pick true errMsg s).store =
          save_posted s
            (select pick (fetch_news parse s.posted_urls feeds).1).url := by
        simp [main, hne2]
      rw [hst]
      have hfile : (save_posted s
          (select pick (fetch_news parse s.posted_urls feeds).1).url).file =
          s.file ++ [(select pick (fetch_news parse s.posted_urls feeds).1).url] := by
        simp [save_posted, save_posted_steps]
      have hpost : (save_posted s
          (select pick (fetch_news parse s.posted_urls feeds).1).url).posted_urls =
          s.posted_urls ++
            [(select pick (fetch_news parse s.posted_urls feeds).1).url] := by
        simp [save_posted, save_posted_steps, addUrl, hnp.1]
      refine ⟨⟨?_, ?_⟩, Or.inr ⟨_, hnp.1, hnf, hfile, ?_⟩⟩
      · rw [hfile]
        simp [List.nodup_append, h.1, hnf]
      · intro v hv
        rw [hfile] at hv
        rw [hpost]
        rcases List.mem_append.mp hv with hv | hv
        · exact List.mem_append_left _ (h.2 v hv)
        · exact List.mem_append_right _ hv
      · rw [hfile, List.count_append, List.count_eq_zero_of_not_mem hnf]
        simp

theorem store_file_append_once_witness :
    Inv (main (fun _ => [{ link := some ("a"), title := some ("A"),
                           summary := some ("s") }]) [("f")] 0 true ("")
      { posted_urls := [], file := [] }).store :=
  (store_file_append_once
    (fun _ => [{ link := some ("a"), title := some ("A"),
                 summary := some ("s") }]) [("f")] 0 true ("")
    { posted_urls := [], file := [] } ⟨List.nodup_nil, by simp⟩).1

/-- C3: evidence that the startup check cannot fire on a missing feed list.
With the credential and chat id present but `RSS_FEEDS` absent, the split of
the empty default is the singleton list containing the empty string, which is
truthy as a Python list, so no startup error is raised even though no usable
feed endpoint is configured (the blank entry is skipped by the fetch loop);
a missing credential or chat id, by contrast, does raise. -/
theorem config_feed_validation_ineffective :
    startup_config_error { bot_token := some ("t"), chat_id := some ("c"),
                           rss_feeds := none } = false ∧
    rssFeedsOf { bot_token := some ("t"), chat_id := some ("c"),
                 rss_feeds := none } = [("")] ∧
    (fetch_news parseTwo []
      (rssFeedsOf { bot_token := some ("t"), chat_id := some ("c"),
                    rss_feeds := none })).1 = [] ∧
    startup_config_error { bot_token := none, chat_id := some ("c"),
                           rss_feeds := some ("http://x") } = true ∧
    startup_config_error { bot_token := some ("t"), chat_id := none,
                           rss_feeds := some ("http://x") } = true := by
  refine ⟨by decide, by decide, by decide, by decide, by decide⟩

end CyberPoster
